import Mathlib

/-!
Shallow embedding of the TinyFox URL shortener core (src/main.py).

Data model: the single `Link` entity, stored as an ordered list of rows
(`Store`), mirroring the `links` table.  Timestamps are integers (seconds);
`datetime.utcnow()` becomes an explicit `now : Int` parameter and
`timedelta(days=d)` becomes `d * 86400`.  The random source behind
`secrets.choice` becomes an explicit stream of pick indices.  URL validation
is performed by the external pydantic library, so it is abstracted as a
boolean predicate `urlValid` passed to the handlers.
-/

namespace TinyFox

/-- The 62-character alphabet `string.ascii_letters + string.digits`
from src/main.py line 49. -/
def ascii_lowercase : List Char := "abcdefghijklmnopqrstuvwxyz".toList

def ascii_uppercase : List Char := "ABCDEFGHIJKLMNOPQRSTUVWXYZ".toList

def ascii_digits : List Char := "0123456789".toList

def ALPHABET : List Char := ascii_lowercase ++ ascii_uppercase ++ ascii_digits

/-- The `Link` ORM model (src/main.py lines 34-44). -/
structure Link where
  id : Nat
  code : String
  long_url : String
  created_at : Int
  clicks : Nat
  last_accessed : Option Int
  expires_at : Option Int
  active : Bool
  note : Option String
deriving DecidableEq

/-- The `links` table: an ordered list of rows. -/
abbrev Store := List Link

/-- `db.query(Link).filter_by(code=code).first()`: first row with this code. -/
def lookup (db : Store) (code : String) : Option Link :=
  db.find? (fun l => l.code == code)

/-- Truthiness of the query result: whether some row has this code. -/
def codeExists (db : Store) (code : String) : Bool :=
  (lookup db code).isSome

/-- `secrets.choice(ALPHABET)`: one uniformly drawn element, modelled by an
arbitrary pick index reduced mod the alphabet size. -/
def secretsChoice (alpha : List Char) (r : Nat) : Char :=
  alpha.getD (r % alpha.length) 'a'

/-- One candidate code: the join of `n` choices from the alphabet
(src/main.py line 54). `pick j` is the random index of the j-th character. -/
def mkCandidate (n : Nat) (pick : Nat → Nat) : String :=
  String.mk ((List.range n).map fun j => secretsChoice ALPHABET (pick j))

/-- The retry loop of `gen_code` (src/main.py lines 51-58), with the random
source explicit (`picks attempt` drives the candidate of one iteration) and a
fuel bound standing for the unbounded `while True`; `none` models the loop
not having terminated within the fuel. -/
def gen_code_from (n : Nat) (picks : Nat → Nat → Nat) (db : Option Store) :
    Nat → Nat → Option String
  | _, 0 => none
  | attempt, fuel + 1 =>
    match db with
    | none => some (mkCandidate n (picks attempt))
    | some store =>
      if codeExists store (mkCandidate n (picks attempt)) then
        gen_code_from n picks db (attempt + 1) fuel
      else some (mkCandidate n (picks attempt))

/-- `gen_code(n, db)` from src/main.py lines 51-58. -/
def gen_code (n : Nat) (picks : Nat → Nat → Nat) (db : Option Store)
    (fuel : Nat) : Option String :=
  gen_code_from n picks db 0 fuel

/-- `timedelta(days=d)` in seconds. -/
def timedeltaDays (d : Int) : Int := d * 86400

/-- The custom-code rejection test of the form handler (src/main.py line 119):
`not (1 <= len(custom_code) <= 16) or any(c not in ALPHABET + "-_" ...)`. -/
def customCodeBad (cc : String) : Bool :=
  !(decide (1 ≤ cc.length) && decide (cc.length ≤ 16)) ||
    cc.toList.any fun ch => !((ALPHABET ++ ['-', '_']).contains ch)

/-- Python truthiness of an optional string: `None` and `""` are falsy. -/
def truthyStr : Option String → Option String
  | none => none
  | some s => if s.isEmpty then none else some s

/-- Outcome of a shorten request.  `ok` is a rendered success page or JSON
response; the error cases are the form error page or HTTP 409 / 422;
`diverge` models the `gen_code` retry loop not terminating. -/
inductive ShortenOutcome where
  | ok (link : Link)
  | invalidUrl
  | invalidCustomCode
  | codeTaken
  | diverge
deriving DecidableEq

/-- Expiry computation of the form handler (src/main.py lines 138-145):
`if expires_in_days:` (None and 0 falsy), then `if d > 0`. -/
def expiry_ui (now : Int) : Option Int → Option Int
  | none => none
  | some d => if d ≠ 0 then (if 0 < d then some (now + timedeltaDays d) else none) else none

/-- Expiry computation of the API handler (src/main.py lines 172-174):
`if payload.expires_in_days and payload.expires_in_days > 0`. -/
def expiry_api (now : Int) : Option Int → Option Int
  | none => none
  | some d => if d ≠ 0 ∧ 0 < d then some (now + timedeltaDays d) else none

/-- `Link(code=..., long_url=..., expires_at=..., note=...)` with the column
defaults of src/main.py lines 36-44: fresh id, `created_at = utcnow`,
`clicks = 0`, `last_accessed = NULL`, `active = True`. -/
def newLink (db : Store) (code long_url : String) (now : Int)
    (expires_at : Option Int) (note : Option String) : Link :=
  { id := db.length + 1, code := code, long_url := long_url, created_at := now,
    clicks := 0, last_accessed := none, expires_at := expires_at,
    active := true, note := note }

/-- The form handler `shorten_ui` (src/main.py lines 97-155), with rendering
stripped: URL validation, custom-code validation and taken-check, code
generation, expiry computation, insert. -/
def shorten_ui (urlValid : String → Bool) (picks : Nat → Nat → Nat)
    (fuel : Nat) (now : Int) (long_url : String) (custom_code : Option String)
    (expires_in_days : Option Int) (note : Option String) (db : Store) :
    ShortenOutcome × Store :=
  if !urlValid long_url then (.invalidUrl, db)
  else
    let pickCode : ShortenOutcome ⊕ String :=
      match truthyStr custom_code with
      | some cc =>
        if customCodeBad cc then .inl .invalidCustomCode
        else if codeExists db cc then .inl .codeTaken
        else .inr cc
      | none =>
        match gen_code 7 picks (some db) fuel with
        | none => .inl .diverge
        | some c => .inr c
    match pickCode with
    | .inl e => (e, db)
    | .inr code =>
      let expires_at := expiry_ui now expires_in_days
      let link := newLink db code long_url now expires_at note
      (.ok link, db ++ [link])

/-- The API handler `api_shorten` (src/main.py lines 167-179).  Note that the
source computes `code = payload.custom_code or gen_code(7, db)` and checks
only whether a nonempty custom code is already taken: it performs no
length or charset validation on the API path. -/
def api_shorten (urlValid : String → Bool) (picks : Nat → Nat → Nat)
    (fuel : Nat) (now : Int) (url : String) (custom_code : Option String)
    (expires_in_days : Option Int) (note : Option String) (db : Store) :
    ShortenOutcome × Store :=
  if !urlValid url then (.invalidUrl, db)
  else
    let code? : Option String :=
      match truthyStr custom_code with
      | some cc => some cc
      | none => gen_code 7 picks (some db) fuel
    match code? with
    | none => (.diverge, db)
    | some code =>
      if (truthyStr custom_code).isSome && codeExists db code then (.codeTaken, db)
      else
        let expires_at := expiry_api now expires_in_days
        let link := newLink db code url now expires_at note
        (.ok link, db ++ [link])

/-- Outcome of resolving a code.  `redirectTo` carries the HTTP status used
(the source uses 307 Temporary Redirect); `notFound` is HTTP 404 and
`expired` is HTTP 410. -/
inductive ResolveOutcome where
  | redirectTo (statusCode : Nat) (long_url : String)
  | notFound
  | expired
deriving DecidableEq

/-- In-place mutation of the fetched ORM row followed by `db.commit()`:
update the first row carrying this code. -/
def updateFirst (code : String) (f : Link → Link) : Store → Store
  | [] => []
  | l :: rest => if l.code == code then f l :: rest else l :: updateFirst code f rest

/-- `link.active = False` (src/main.py line 205). -/
def expire (l : Link) : Link := { l with active := false }

/-- `link.clicks += 1; link.last_accessed = datetime.utcnow()`
(src/main.py lines 208-209). -/
def bumpStats (now : Int) (l : Link) : Link :=
  { l with clicks := l.clicks + 1, last_accessed := some now }

/-- The redirect resolver (src/main.py lines 199-212). -/
def redirect (now : Int) (code : String) (db : Store) :
    ResolveOutcome × Store :=
  match lookup db code with
  | none => (.notFound, db)
  | some link =>
    if !link.active then (.notFound, db)
    else
      match link.expires_at with
      | some e =>
        if now > e then (.expired, updateFirst code expire db)
        else (.redirectTo 307 link.long_url, updateFirst code (bumpStats now) db)
      | none => (.redirectTo 307 link.long_url, updateFirst code (bumpStats now) db)

/-- The JSON body returned by `api_info` (src/main.py lines 186-196). -/
structure InfoRecord where
  code : String
  long_url : String
  created_at : Int
  clicks : Nat
  last_accessed : Option Int
  expires_at : Option Int
  active : Bool
  note : Option String
deriving DecidableEq

/-- Field projection used by `api_info` to build its JSON body. -/
def infoOf (link : Link) : InfoRecord :=
  { code := link.code, long_url := link.long_url, created_at := link.created_at,
    clicks := link.clicks, last_accessed := link.last_accessed,
    expires_at := link.expires_at, active := link.active, note := link.note }

/-- `api_info` (src/main.py lines 181-196): lookup, 404 if absent, else the
JSON projection of the row.  The store is returned to expose the (absent)
write effect. -/
def api_info (code : String) (db : Store) : Option InfoRecord × Store :=
  match lookup db code with
  | none => (none, db)
  | some link => (some (infoOf link), db)

/-- The `stats` page handler (src/main.py lines 157-164): lookup, 404 if
absent, else render the row.  Rendering is stripped; the store is returned to
expose the (absent) write effect. -/
def stats (code : String) (db : Store) : Option Link × Store :=
  (lookup db code, db)

/-! ## Helper lemmas -/

/-- A pick from a nonempty alphabet is an element of the alphabet. -/
theorem secretsChoice_mem (alpha : List Char) (r : Nat) (h : alpha ≠ []) :
    secretsChoice alpha r ∈ alpha := by
  have hlen : 0 < alpha.length := List.length_pos.mpr h
  have hlt : r % alpha.length < alpha.length := Nat.mod_lt _ hlen
  rw [secretsChoice, List.getD_eq_getElem alpha 'a' hlt]
  exact List.getElem_mem hlt

/-- A generated candidate has exactly the requested length. -/
theorem mkCandidate_length (n : Nat) (pick : Nat → Nat) :
    (mkCandidate n pick).length = n := by
  show ((List.range n).map fun j => secretsChoice ALPHABET (pick j)).length = n
  simp

/-- Every character of a generated candidate lies in the alphabet. -/
theorem mkCandidate_mem {n : Nat} {pick : Nat → Nat} {ch : Char}
    (h : ch ∈ (mkCandidate n pick).toList) : ch ∈ ALPHABET := by
  have h' : ch ∈ (List.range n).map fun j => secretsChoice ALPHABET (pick j) := h
  obtain ⟨j, -, rfl⟩ := List.mem_map.mp h'
  exact secretsChoice_mem ALPHABET (pick j) (by decide)

/-- Whatever the retry loop returns is a candidate that is free in the store. -/
theorem gen_code_from_sound {n : Nat} {picks : Nat → Nat → Nat} {store : Store} :
    ∀ {fuel attempt : Nat} {c : String},
      gen_code_from n picks (some store) attempt fuel = some c →
      (∃ i, c = mkCandidate n (picks i)) ∧ codeExists store c = false := by
  intro fuel
  induction fuel with
  | zero => intro attempt c h; simp [gen_code_from] at h
  | succ fuel ih =>
    intro attempt c h
    rw [gen_code_from] at h
    by_cases hex : codeExists store (mkCandidate n (picks attempt)) = true
    · rw [if_pos hex] at h
      exact ih h
    · rw [if_neg hex] at h
      injection h with h
      subst h
      exact ⟨⟨attempt, rfl⟩, Bool.not_eq_true _ ▸ hex⟩

/-- If some attempt within the fuel draws a free candidate, the retry loop
returns a code. -/
theorem gen_code_from_total {n : Nat} {picks : Nat → Nat → Nat} {store : Store} :
    ∀ (fuel attempt : Nat),
      (∃ i, i < fuel ∧ codeExists store (mkCandidate n (picks (attempt + i))) = false) →
      ∃ c, gen_code_from n picks (some store) attempt fuel = some c := by
  intro fuel
  induction fuel with
  | zero => rintro attempt ⟨i, hi, -⟩; omega
  | succ fuel ih =>
    rintro attempt ⟨i, hi, hfree⟩
    rw [gen_code_from]
    by_cases hex : codeExists store (mkCandidate n (picks attempt)) = true
    · rw [if_pos hex]
      refine ih (attempt + 1) ⟨i - 1, ?_, ?_⟩
      · rcases Nat.eq_zero_or_pos i with h0 | h0
        · subst h0; simp at hfree; rw [hfree] at hex; cases hex
        · omega
      · rcases Nat.eq_zero_or_pos i with h0 | h0
        · subst h0; simp at hfree; rw [hfree] at hex; cases hex
        · have : attempt + 1 + (i - 1) = attempt + i := by omega
          rw [this]; exact hfree
    · rw [if_neg hex]
      exact ⟨_, rfl⟩

/-- Lookup on a nonempty store: the head wins when its code matches. -/
theorem lookup_cons (l : Link) (db : Store) (c : String) :
    lookup (l :: db) c = if l.code == c then some l else lookup db c := by
  by_cases hc : (l.code == c) = true
  · rw [if_pos hc]
    exact List.find?_cons_of_pos _ hc
  · rw [if_neg hc]
    exact List.find?_cons_of_neg _ hc

/-- Lookup over a concatenation: first match on the left wins. -/
theorem lookup_append (db db₂ : Store) (c : String) :
    lookup (db ++ db₂) c = (lookup db c).or (lookup db₂ c) :=
  List.find?_append

/-- If no row of `db` carries code `c`, a freshly appended row with code `c`
is the one found. -/
theorem lookup_append_fresh {db : Store} {c : String} (link : Link)
    (hnone : lookup db c = none) (hcode : (link.code == c) = true) :
    lookup (db ++ [link]) c = some link := by
  rw [lookup_append, hnone, Option.none_or, lookup_cons, if_pos hcode]

/-- `codeExists` is false exactly when lookup returns nothing. -/
theorem codeExists_false_iff {db : Store} {c : String} :
    codeExists db c = false ↔ lookup db c = none := by
  rw [codeExists]
  cases lookup db c <;> simp

/-- If lookup finds no row with code `c`, no row carries `c`. -/
theorem countP_eq_zero_of_lookup_none {db : Store} {c : String}
    (h : lookup db c = none) : db.countP (fun l => l.code == c) = 0 := by
  rw [List.countP_eq_zero]
  exact fun l hl => List.find?_eq_none.mp h l hl

/-- Updating the first row with a code-preserving mutation is observed by the
next lookup of that code. -/
theorem lookup_updateFirst (f : Link → Link) (hf : ∀ l, (f l).code = l.code)
    {code : String} :
    ∀ {db : Store} {link : Link}, lookup db code = some link →
      lookup (updateFirst code f db) code = some (f link) := by
  intro db
  induction db with
  | nil => intro link h; simp [lookup] at h
  | cons l rest ih =>
    intro link h
    by_cases hc : (l.code == code) = true
    · rw [lookup_cons, if_pos hc] at h
      injection h with h
      subst h
      have hfc : ((f l).code == code) = true := by rw [hf]; exact hc
      rw [updateFirst, if_pos hc, lookup_cons, if_pos hfc]
    · rw [lookup_cons, if_neg hc] at h
      rw [updateFirst, if_neg hc, lookup_cons, if_neg hc]
      exact ih h

/-- Row-wise relation between a store and its update: each row is either kept
or mutated by `f`. -/
theorem forall₂_updateFirst {R : Link → Link → Prop} (f : Link → Link)
    (code : String) (h1 : ∀ l, R l l) (h2 : ∀ l, R l (f l)) :
    ∀ db : Store, List.Forall₂ R db (updateFirst code f db)
  | [] => List.Forall₂.nil
  | l :: rest => by
    rw [updateFirst]
    by_cases hc : (l.code == code) = true
    · rw [if_pos hc]
      exact List.Forall₂.cons (h2 l) (List.forall₂_same.mpr fun x _ => h1 x)
    · rw [if_neg hc]
      exact List.Forall₂.cons (h1 l) (forall₂_updateFirst f code h1 h2 rest)

/-- Resolver behavior when the row is present, active and strictly expired. -/
theorem redirect_expired_eq {db : Store} {code : String} {link : Link}
    {now e : Int} (hfind : lookup db code = some link)
    (hact : link.active = true) (hexp : link.expires_at = some e)
    (hpast : e < now) :
    redirect now code db = (.expired, updateFirst code expire db) := by
  rw [redirect, hfind]
  simp [hact, hexp, hpast]

/-- Resolver behavior when the row is present, active and not expired. -/
theorem redirect_live_eq {db : Store} {code : String} {link : Link} {now : Int}
    (hfind : lookup db code = some link) (hact : link.active = true)
    (hne : ∀ e, link.expires_at = some e → ¬ e < now) :
    redirect now code db =
      (.redirectTo 307 link.long_url, updateFirst code (bumpStats now) db) := by
  rw [redirect, hfind]
  cases hexp : link.expires_at with
  | none => simp [hact, hexp]
  | some e => simp [hact, hexp, hne e hexp]

/-- Resolver behavior on an inactive row: 404 and no write. -/
theorem redirect_inactive_eq {db : Store} {code : String} {link : Link}
    {now : Int} (hfind : lookup db code = some link)
    (hact : link.active = false) :
    redirect now code db = (.notFound, db) := by
  rw [redirect, hfind]
  simp [hact]

/-- Form handler with a nonempty, well-formed, fresh custom code: the new row
is appended and returned. -/
theorem shorten_ui_custom_ok {urlValid : String → Bool} {picks : Nat → Nat → Nat}
    {fuel : Nat} {now : Int} {u cc : String} {d : Option Int}
    {note : Option String} {db : Store}
    (hurl : urlValid u = true) (hne : cc.isEmpty = false)
    (hgood : customCodeBad cc = false) (hfresh : codeExists db cc = false) :
    shorten_ui urlValid picks fuel now u (some cc) d note db =
      (.ok (newLink db cc u now (expiry_ui now d) note),
        db ++ [newLink db cc u now (expiry_ui now d) note]) := by
  simp [shorten_ui, hurl, truthyStr, hne, hgood, hfresh]

/-- Form handler with a nonempty, well-formed custom code that is already in
the store: CodeTaken, store unchanged. -/
theorem shorten_ui_custom_taken {urlValid : String → Bool}
    {picks : Nat → Nat → Nat} {fuel : Nat} {now : Int} {u cc : String}
    {d : Option Int} {note : Option String} {db : Store}
    (hurl : urlValid u = true) (hne : cc.isEmpty = false)
    (hgood : customCodeBad cc = false) (htaken : codeExists db cc = true) :
    shorten_ui urlValid picks fuel now u (some cc) d note db =
      (.codeTaken, db) := by
  simp [shorten_ui, hurl, truthyStr, hne, hgood, htaken]

/-- API handler with a nonempty, fresh custom code: the new row is appended
and returned (no length or charset validation happens on this path). -/
theorem api_shorten_custom_ok {urlValid : String → Bool}
    {picks : Nat → Nat → Nat} {fuel : Nat} {now : Int} {u cc : String}
    {d : Option Int} {note : Option String} {db : Store}
    (hurl : urlValid u = true) (hne : cc.isEmpty = false)
    (hfresh : codeExists db cc = false) :
    api_shorten urlValid picks fuel now u (some cc) d note db =
      (.ok (newLink db cc u now (expiry_api now d) note),
        db ++ [newLink db cc u now (expiry_api now d) note]) := by
  simp [api_shorten, hurl, truthyStr, hne, hfresh]

/-- API handler with a nonempty custom code already in the store: CodeTaken,
store unchanged. -/
theorem api_shorten_custom_taken {urlValid : String → Bool}
    {picks : Nat → Nat → Nat} {fuel : Nat} {now : Int} {u cc : String}
    {d : Option Int} {note : Option String} {db : Store}
    (hurl : urlValid u = true) (hne : cc.isEmpty = false)
    (htaken : codeExists db cc = true) :
    api_shorten urlValid picks fuel now u (some cc) d note db =
      (.codeTaken, db) := by
  simp [api_shorten, hurl, truthyStr, hne, htaken]

/-- Whatever the form handler does, the resulting store is the old store
plus (possibly) one appended row: existing rows are untouched. -/
theorem shorten_ui_extends (urlValid : String → Bool) (picks : Nat → Nat → Nat)
    (fuel : Nat) (now : Int) (u : String) (cc : Option String)
    (d : Option Int) (note : Option String) (db : Store) :
    ∃ ext, (shorten_ui urlValid picks fuel now u cc d note db).2 = db ++ ext := by
  by_cases hu : urlValid u = true
  · cases htr : truthyStr cc with
    | some cc' =>
      by_cases hb : customCodeBad cc' = true
      · exact ⟨[], by simp [shorten_ui, hu, htr, hb]⟩
      · by_cases hex : codeExists db cc' = true
        · exact ⟨[], by simp [shorten_ui, hu, htr, hb, hex]⟩
        · exact ⟨[newLink db cc' u now (expiry_ui now d) note],
            by simp [shorten_ui, hu, htr, hb, hex]⟩
    | none =>
      cases hg : gen_code 7 picks (some db) fuel with
      | none => exact ⟨[], by simp [shorten_ui, hu, htr, hg]⟩
      | some c => exact ⟨[newLink db c u now (expiry_ui now d) note],
          by simp [shorten_ui, hu, htr, hg]⟩
  · exact ⟨[], by simp [shorten_ui, hu]⟩

/-- Whatever the API handler does, the resulting store is the old store plus
(possibly) one appended row: existing rows are untouched. -/
theorem api_shorten_extends (urlValid : String → Bool) (picks : Nat → Nat → Nat)
    (fuel : Nat) (now : Int) (u : String) (cc : Option String)
    (d : Option Int) (note : Option String) (db : Store) :
    ∃ ext, (api_shorten urlValid picks fuel now u cc d note db).2 = db ++ ext := by
  by_cases hu : urlValid u = true
  · cases htr : truthyStr cc with
    | some cc' =>
      by_cases hex : codeExists db cc' = true
      · exact ⟨[], by simp [api_shorten, hu, htr, hex]⟩
      · exact ⟨[newLink db cc' u now (expiry_api now d) note],
          by simp [api_shorten, hu, htr, hex]⟩
    | none =>
      cases hg : gen_code 7 picks (some db) fuel with
      | none => exact ⟨[], by simp [api_shorten, hu, htr, hg]⟩
      | some c => exact ⟨[newLink db c u now (expiry_api now d) note],
          by simp [api_shorten, hu, htr, hg]⟩
  · exact ⟨[], by simp [api_shorten, hu]⟩

/-- Resolution never reactivates a row: each row of the new store is the old
row or a mutation that keeps `active = false` rows inactive. -/
theorem redirect_preserves_inactive (now : Int) (code : String) (db : Store) :
    List.Forall₂ (fun l l' => l.active = false → l'.active = false) db
      (redirect now code db).2 := by
  cases hlk : lookup db code with
  | none =>
    simp only [redirect, hlk]
    exact List.forall₂_same.mpr fun x _ => id
  | some link =>
    cases hact : link.active with
    | false =>
      simp only [redirect, hlk, hact, Bool.not_false, if_pos]
      exact List.forall₂_same.mpr fun x _ => id
    | true =>
      cases hexp : link.expires_at with
      | none =>
        simp only [redirect, hlk, hact, Bool.not_true, Bool.false_eq_true,
          if_false, hexp]
        exact forall₂_updateFirst _ _ (fun l h => h) (fun l h => h) db
      | some e =>
        by_cases hlt : now > e
        · simp only [redirect, hlk, hact, Bool.not_true, Bool.false_eq_true,
            if_false, hexp, if_pos hlt]
          exact forall₂_updateFirst _ _ (fun l h => h) (fun l _ => rfl) db
        · simp only [redirect, hlk, hact, Bool.not_true, Bool.false_eq_true,
            if_false, hexp, if_neg hlt]
          exact forall₂_updateFirst _ _ (fun l h => h) (fun l h => h) db

/-! ## Concrete rows used by the witnesses -/

/-- A concrete active row that expires at time 10. -/
def sampleExpiring : Link :=
  { id := 1, code := "ab", long_url := "https://example.com", created_at := 0,
    clicks := 3, last_accessed := none, expires_at := some 10, active := true,
    note := none }

/-! ## Claims -/

/-- C1 (counterexample): the claim says every Shorten request (form or API
path) carrying a custom code longer than 16 characters fails with
InvalidCustomCode and inserts nothing; but the API handler performs no
length or charset validation, so a 17-character custom code is accepted and
a Link row is inserted. -/
theorem C1_counterexample :
    (api_shorten (fun _ => true) (fun _ _ => 0) 1 0 "https://example.com"
        (some "aaaaaaaaaaaaaaaaa") none none []).1 ≠
      ShortenOutcome.invalidCustomCode ∧
    (api_shorten (fun _ => true) (fun _ _ => 0) 1 0 "https://example.com"
        (some "aaaaaaaaaaaaaaaaa") none none []).2.length = 1 := by
  decide

/-- C1 (amended): on the form path, a Shorten request carrying a nonempty
custom code whose length is 0 or greater than 16 or which contains a
character outside the allowed set fails with InvalidCustomCode and no Link
row is inserted. -/
theorem C1_formPathRejectsBadCustomCode
    (urlValid : String → Bool) (picks : Nat → Nat → Nat) (fuel : Nat)
    (now : Int) (u : String) (d : Option Int) (note : Option String)
    (db : Store) (cc : String) (hurl : urlValid u = true)
    (hne : cc.isEmpty = false) (hbad : customCodeBad cc = true) :
    shorten_ui urlValid picks fuel now u (some cc) d note db =
      (.invalidCustomCode, db) := by
  simp [shorten_ui, hurl, truthyStr, hne, hbad]

/-- C1 (witness): the amended theorem applied to a 17-character custom code
on the form path. -/
theorem C1_formPathRejectsBadCustomCode_witness :
    shorten_ui (fun _ => true) (fun _ _ => 0) 1 0 "https://example.com"
      (some "aaaaaaaaaaaaaaaaa") none none [] = (.invalidCustomCode, []) :=
  C1_formPathRejectsBadCustomCode _ _ _ _ _ _ _ _ _ rfl (by decide) (by decide)

/-- C2: resolving an active row whose expiry is strictly past returns
Expired and persists `active = false`, leaving every row's `clicks` and
`last_accessed` untouched; a subsequent resolution of the same code returns
NotFound (not Expired) and changes nothing. -/
theorem C2_expiryOneShot (db : Store) (code : String) (link : Link)
    (now now2 e : Int) (hfind : lookup db code = some link)
    (hact : link.active = true) (hexp : link.expires_at = some e)
    (hpast : e < now) :
    (redirect now code db).1 = .expired ∧
    lookup (redirect now code db).2 code = some (expire link) ∧
    List.Forall₂
      (fun l l' => l'.clicks = l.clicks ∧ l'.last_accessed = l.last_accessed)
      db (redirect now code db).2 ∧
    redirect now2 code (redirect now code db).2 =
      (.notFound, (redirect now code db).2) := by
  have heq := redirect_expired_eq hfind hact hexp hpast
  rw [heq]
  have hlook : lookup (updateFirst code expire db) code = some (expire link) :=
    lookup_updateFirst expire (fun _ => rfl) hfind
  exact ⟨rfl, hlook,
    forall₂_updateFirst _ _ (fun _ => ⟨rfl, rfl⟩) (fun _ => ⟨rfl, rfl⟩) db,
    redirect_inactive_eq hlook rfl⟩

/-- C2 (witness): the one-shot expiry transition on a concrete store. -/
theorem C2_expiryOneShot_witness :
    (redirect 11 "ab" [sampleExpiring]).1 = .expired ∧
    lookup (redirect 11 "ab" [sampleExpiring]).2 "ab" =
      some (expire sampleExpiring) ∧
    List.Forall₂
      (fun l l' => l'.clicks = l.clicks ∧ l'.last_accessed = l.last_accessed)
      [sampleExpiring] (redirect 11 "ab" [sampleExpiring]).2 ∧
    redirect 12 "ab" (redirect 11 "ab" [sampleExpiring]).2 =
      (.notFound, (redirect 11 "ab" [sampleExpiring]).2) :=
  C2_expiryOneShot [sampleExpiring] "ab" sampleExpiring 11 12 10 rfl rfl rfl
    (by decide)

/-- C3: resolving an existing, active, unexpired row increments `clicks` by
exactly one, sets `last_accessed` to the resolution time while leaving the
row's other fields unchanged (`bumpStats` touches nothing else), leaves all
other rows unchanged, and answers with the stored URL under the temporary
307 redirect status. -/
theorem C3_activeResolve (db : Store) (code : String) (link : Link)
    (now : Int) (hfind : lookup db code = some link)
    (hact : link.active = true)
    (hne : ∀ e, link.expires_at = some e → ¬ e < now) :
    (redirect now code db).1 = .redirectTo 307 link.long_url ∧
    lookup (redirect now code db).2 code = some (bumpStats now link) ∧
    List.Forall₂ (fun l l' => l' = l ∨ l' = bumpStats now l) db
      (redirect now code db).2 := by
  have heq := redirect_live_eq hfind hact hne
  rw [heq]
  exact ⟨rfl, lookup_updateFirst (bumpStats now) (fun _ => rfl) hfind,
    forall₂_updateFirst _ _ (fun _ => Or.inl rfl) (fun _ => Or.inr rfl) db⟩

/-- C3 (witness): a successful resolution on a concrete store. -/
theorem C3_activeResolve_witness :
    (redirect 9 "ab" [sampleExpiring]).1 =
      .redirectTo 307 sampleExpiring.long_url ∧
    lookup (redirect 9 "ab" [sampleExpiring]).2 "ab" =
      some (bumpStats 9 sampleExpiring) ∧
    List.Forall₂ (fun l l' => l' = l ∨ l' = bumpStats 9 l) [sampleExpiring]
      (redirect 9 "ab" [sampleExpiring]).2 :=
  C3_activeResolve [sampleExpiring] "ab" sampleExpiring 9 rfl rfl
    (fun e he => by
      have h10 : (some 10 : Option Int) = some e := he
      have : e = 10 := (Option.some.inj h10).symm
      subst this
      decide)

/-- C4: shortening a valid URL through the API and then resolving the
returned code against the resulting store (no intervening operations, no
expiry requested) yields exactly the URL that was stored. -/
theorem C4_roundTrip (urlValid : String → Bool) (picks : Nat → Nat → Nat)
    (fuel : Nat) (now now2 : Int) (u : String) (note : Option String)
    (db : Store) (c : String) (hurl : urlValid u = true)
    (hgen : gen_code 7 picks (some db) fuel = some c) :
    ∃ link : Link,
      api_shorten urlValid picks fuel now u none none note db =
        (.ok link, db ++ [link]) ∧
      link.code = c ∧ link.long_url = u ∧ link.expires_at = none ∧
      (redirect now2 c (db ++ [link])).1 = .redirectTo 307 u := by
  have hfree : codeExists db c = false := (gen_code_from_sound hgen).2
  have hnone : lookup db c = none := codeExists_false_iff.mp hfree
  refine ⟨newLink db c u now none note, ?_, rfl, rfl, rfl, ?_⟩
  · simp [api_shorten, hurl, truthyStr, hgen, expiry_api]
  · have hlk : lookup (db ++ [newLink db c u now none note]) c =
        some (newLink db c u now none note) :=
      lookup_append_fresh _ hnone (by simp [newLink])
    rw [redirect_live_eq hlk rfl (fun e he => by simp [newLink] at he)]
    rfl

/-- C4 (witness): the round trip on the empty store with a concrete pick
stream, which generates the code of seven letters a. -/
theorem C4_roundTrip_witness :
    ∃ link : Link,
      api_shorten (fun _ => true) (fun _ _ => 0) 1 0 "https://example.com"
          none none none [] = (.ok link, [] ++ [link]) ∧
      link.code = "aaaaaaa" ∧ link.long_url = "https://example.com" ∧
      link.expires_at = none ∧
      (redirect 5 "aaaaaaa" ([] ++ [link])).1 =
        .redirectTo 307 "https://example.com" :=
  C4_roundTrip _ _ _ _ _ _ _ _ _ rfl (by decide)

/-- C5: whenever some attempt within the fuel bound draws a candidate that
is free in the store, `gen_code` returns a code of exactly the requested
length, drawn from the 62-character alphanumeric alphabet, that is not
already present in the store (the candidate is re-checked against the store
before being accepted). -/
theorem C5_genCodeSpec (n fuel : Nat) (picks : Nat → Nat → Nat)
    (store : Store)
    (hfree : ∃ i, i < fuel ∧
      codeExists store (mkCandidate n (picks i)) = false) :
    ∃ c, gen_code n picks (some store) fuel = some c ∧
      c.length = n ∧ (∀ ch ∈ c.toList, ch ∈ ALPHABET) ∧
      codeExists store c = false := by
  obtain ⟨c, hc⟩ := gen_code_from_total fuel 0 (by simpa using hfree)
  obtain ⟨⟨i, hi⟩, hfreec⟩ := gen_code_from_sound hc
  subst hi
  exact ⟨_, hc, mkCandidate_length _ _, fun _ hch => mkCandidate_mem hch,
    hfreec⟩

/-- C5 (witness): generation on the empty store with a concrete pick
stream. -/
theorem C5_genCodeSpec_witness :
    ∃ c, gen_code 3 (fun _ _ => 0) (some []) 1 = some c ∧
      c.length = 3 ∧ (∀ ch ∈ c.toList, ch ∈ ALPHABET) ∧
      codeExists [] c = false :=
  C5_genCodeSpec 3 1 (fun _ _ => 0) [] ⟨0, by decide, by decide⟩

/-- C6: no operation of the core reactivates a row.  Both shorten handlers
only append to the store, resolution relates every old row to a new row
that is inactive whenever the old one was, and the info and stats reads
leave the store untouched. -/
theorem C6_inactiveStaysInactive (urlValid : String → Bool)
    (picks : Nat → Nat → Nat) (fuel : Nat) (now : Int) (u : String)
    (cc : Option String) (d : Option Int) (note : Option String)
    (code : String) (db : Store) :
    (∃ ext, (shorten_ui urlValid picks fuel now u cc d note db).2 = db ++ ext) ∧
    (∃ ext, (api_shorten urlValid picks fuel now u cc d note db).2 = db ++ ext) ∧
    List.Forall₂ (fun l l' => l.active = false → l'.active = false) db
      (redirect now code db).2 ∧
    (api_info code db).2 = db ∧
    (stats code db).2 = db := by
  refine ⟨shorten_ui_extends urlValid picks fuel now u cc d note db,
    api_shorten_extends urlValid picks fuel now u cc d note db,
    redirect_preserves_inactive now code db, ?_, rfl⟩
  cases hlk : lookup db code <;> simp [api_info, hlk]

/-- C7: a Shorten request with `expiresInDays` equal to 0 or negative
succeeds and stores the row with no expiry, on both the form and the API
path; only a strictly positive day count produces an expiry, equal to the
creation time plus that many days. -/
theorem C7_expiryDays (urlValid : String → Bool) (picks : Nat → Nat → Nat)
    (fuel : Nat) (now : Int) (u cc : String) (note : Option String)
    (db : Store) (d : Int) (hurl : urlValid u = true)
    (hne : cc.isEmpty = false) (hgood : customCodeBad cc = false)
    (hfresh : codeExists db cc = false) :
    ∃ l₁ l₂ : Link,
      shorten_ui urlValid picks fuel now u (some cc) (some d) note db =
        (.ok l₁, db ++ [l₁]) ∧
      api_shorten urlValid picks fuel now u (some cc) (some d) note db =
        (.ok l₂, db ++ [l₂]) ∧
      l₁.created_at = now ∧ l₂.created_at = now ∧
      l₁.expires_at = (if 0 < d then some (now + timedeltaDays d) else none) ∧
      l₂.expires_at = (if 0 < d then some (now + timedeltaDays d) else none) := by
  refine ⟨newLink db cc u now (expiry_ui now (some d)) note,
    newLink db cc u now (expiry_api now (some d)) note,
    shorten_ui_custom_ok hurl hne hgood hfresh,
    api_shorten_custom_ok hurl hne hfresh, rfl, rfl, ?_, ?_⟩
  · show expiry_ui now (some d) = _
    rw [expiry_ui]
    by_cases h0 : d = 0
    · subst h0; simp
    · rw [if_pos h0]
  · show expiry_api now (some d) = _
    rw [expiry_api]
    by_cases hpos : 0 < d
    · rw [if_pos ⟨hpos.ne', hpos⟩, if_pos hpos]
    · rw [if_neg (fun h => hpos h.2), if_neg hpos]

/-- C7 (witness): the form and API handlers with `expiresInDays = 0` on a
concrete store, producing rows with no expiry. -/
theorem C7_expiryDays_witness :
    ∃ l₁ l₂ : Link,
      shorten_ui (fun _ => true) (fun _ _ => 0) 1 5 "https://example.com"
          (some "ab") (some 0) none [] = (.ok l₁, [] ++ [l₁]) ∧
      api_shorten (fun _ => true) (fun _ _ => 0) 1 5 "https://example.com"
          (some "ab") (some 0) none [] = (.ok l₂, [] ++ [l₂]) ∧
      l₁.created_at = 5 ∧ l₂.created_at = 5 ∧
      l₁.expires_at = (if 0 < (0 : Int) then some (5 + timedeltaDays 0) else none) ∧
      l₂.expires_at = (if 0 < (0 : Int) then some (5 + timedeltaDays 0) else none) :=
  C7_expiryDays (fun _ => true) (fun _ _ => 0) 1 5 "https://example.com" "ab"
    none [] 0 rfl (by decide) (by decide) (by decide)

/-- C8: shortening twice with the same well-formed fresh custom code makes
the second call fail with CodeTaken on either path, leaves the store as the
first call left it, and the store holds exactly one row with that code. -/
theorem C8_duplicateCustomCode (urlValid : String → Bool)
    (picks : Nat → Nat → Nat) (fuel : Nat) (now1 now2 : Int)
    (u1 u2 : String) (d1 d2 : Option Int) (note1 note2 : Option String)
    (db : Store) (cc : String) (hurl1 : urlValid u1 = true)
    (hurl2 : urlValid u2 = true) (hne : cc.isEmpty = false)
    (hgood : customCodeBad cc = false) (hfresh : codeExists db cc = false) :
    ∃ link : Link,
      shorten_ui urlValid picks fuel now1 u1 (some cc) d1 note1 db =
        (.ok link, db ++ [link]) ∧
      shorten_ui urlValid picks fuel now2 u2 (some cc) d2 note2 (db ++ [link]) =
        (.codeTaken, db ++ [link]) ∧
      api_shorten urlValid picks fuel now2 u2 (some cc) d2 note2 (db ++ [link]) =
        (.codeTaken, db ++ [link]) ∧
      (db ++ [link]).countP (fun l => l.code == cc) = 1 := by
  have hnone : lookup db cc = none := codeExists_false_iff.mp hfresh
  have hlk : lookup (db ++ [newLink db cc u1 now1 (expiry_ui now1 d1) note1]) cc =
      some (newLink db cc u1 now1 (expiry_ui now1 d1) note1) :=
    lookup_append_fresh _ hnone (by simp [newLink])
  have htaken :
      codeExists (db ++ [newLink db cc u1 now1 (expiry_ui now1 d1) note1]) cc
        = true := by
    rw [codeExists, hlk]; rfl
  refine ⟨newLink db cc u1 now1 (expiry_ui now1 d1) note1,
    shorten_ui_custom_ok hurl1 hne hgood hfresh,
    shorten_ui_custom_taken hurl2 hne hgood htaken,
    api_shorten_custom_taken hurl2 hne htaken, ?_⟩
  rw [List.countP_append, countP_eq_zero_of_lookup_none hnone]
  simp [newLink]

/-- C8 (witness): the duplicate custom code "ab" on the empty store. -/
theorem C8_duplicateCustomCode_witness :
    ∃ link : Link,
      shorten_ui (fun _ => true) (fun _ _ => 0) 1 0 "https://example.com"
          (some "ab") none none [] = (.ok link, [] ++ [link]) ∧
      shorten_ui (fun _ => true) (fun _ _ => 0) 1 1 "https://example.org"
          (some "ab") none none ([] ++ [link]) = (.codeTaken, [] ++ [link]) ∧
      api_shorten (fun _ => true) (fun _ _ => 0) 1 1 "https://example.org"
          (some "ab") none none ([] ++ [link]) = (.codeTaken, [] ++ [link]) ∧
      ([] ++ [link]).countP (fun l : Link => l.code == "ab") = 1 :=
  C8_duplicateCustomCode (fun _ => true) (fun _ _ => 0) 1 0 1
    "https://example.com" "https://example.org" none none none none [] "ab"
    rfl rfl (by decide) (by decide) (by decide)

/-- C9: the expiry comparison is strict.  Resolving an active row whose
expiry equals the resolution time is a successful redirect: clicks are
incremented and the stored URL is returned, not Expired. -/
theorem C9_expiryBoundaryStrict (db : Store) (code : String) (link : Link)
    (now : Int) (hfind : lookup db code = some link)
    (hact : link.active = true) (hexp : link.expires_at = some now) :
    (redirect now code db).1 = .redirectTo 307 link.long_url ∧
    lookup (redirect now code db).2 code = some (bumpStats now link) := by
  have hne : ∀ e, link.expires_at = some e → ¬ e < now := by
    intro e he
    rw [hexp] at he
    injection he with he
    subst he
    exact lt_irrefl now
  rw [redirect_live_eq hfind hact hne]
  exact ⟨rfl, lookup_updateFirst (bumpStats now) (fun _ => rfl) hfind⟩

/-- C9 (witness): resolution exactly at the expiry instant of a concrete
row succeeds. -/
theorem C9_expiryBoundaryStrict_witness :
    (redirect 10 "ab" [sampleExpiring]).1 =
      .redirectTo 307 sampleExpiring.long_url ∧
    lookup (redirect 10 "ab" [sampleExpiring]).2 "ab" =
      some (bumpStats 10 sampleExpiring) :=
  C9_expiryBoundaryStrict [sampleExpiring] "ab" sampleExpiring 10 rfl rfl rfl

/-- C10: the info and stats reads are pure.  They return the store
unchanged — never touching clicks, last_accessed or active — and their
results are exactly the projection of the looked-up row. -/
theorem C10_infoReadOnly (code : String) (db : Store) :
    (api_info code db).2 = db ∧ (stats code db).2 = db ∧
    (api_info code db).1 = (lookup db code).map infoOf ∧
    (stats code db).1 = lookup db code := by
  cases hlk : lookup db code <;> simp [api_info, stats, hlk]

end TinyFox
